import Mathlib

/-!
Verification development for the site-generator core:
the static-site exporter (`src/lib/exportSite.ts`), the schema validation and
generation flow (`SiteGenerator.tsx`), and the JSON manifest round trip.

Strings are modelled as `List Char`.  All definitions are translated from the
TypeScript source; JSON parsing (`JSON.parse`) and serialization
(`JSON.stringify`) are modelled on the string/array/object/bool/null fragment
of JSON, which covers every value this program produces or inspects.
-/

set_option maxHeartbeats 4000000
set_option maxRecDepth 16384

/-! ## Data model (src/types/site.ts) -/

inductive Theme where
  | green
  | light
  | dark
deriving DecidableEq

structure FeatureItem where
  title : List Char
  description : List Char
  icon : Option (List Char)
deriving DecidableEq

inductive Section where
  | hero (headline : List Char) (subheadline : Option (List Char)) (ctaLabel : Option (List Char))
  | features (title : Option (List Char)) (items : List FeatureItem)
  | testimonial (quote : List Char) (author : List Char)
  | cta (headline : List Char) (ctaLabel : Option (List Char))
deriving DecidableEq

structure GeneratedSite where
  title : List Char
  theme : Option Theme
  sections : List Section
deriving DecidableEq

/-! ## escapeHtml (exportSite.ts lines 4-11)

`String.prototype.replaceAll` with a single-character pattern replaces every
occurrence of that character; `replaceAllC` is that operation on `List Char`.
-/

def replaceAllC (c : Char) (r : List Char) : List Char → List Char
  | [] => []
  | a :: as => (if a = c then r else [a]) ++ replaceAllC c r as

def escapeHtml (s : List Char) : List Char :=
  replaceAllC '\x27' "&#39;".data
    (replaceAllC '"' "&quot;".data
      (replaceAllC '>' "&gt;".data
        (replaceAllC '<' "&lt;".data
          (replaceAllC '&' "&amp;".data s))))

/-- Spec-side description of the escaping: each of the five characters
`&`, `<`, `>`, `"`, `'` is mapped to its HTML entity, every other character
is kept.  `escapeHtml` is proved equal to `flatMap escCharSpec`. -/
def escCharSpec (c : Char) : List Char :=
  if c = '&' then "&amp;".data
  else if c = '<' then "&lt;".data
  else if c = '>' then "&gt;".data
  else if c = '"' then "&quot;".data
  else if c = '\x27' then "&#39;".data
  else [c]

/-! ## slugify / filenameForSite (exportSite.ts lines 13-22) -/

def asciiLower (c : Char) : Char :=
  if 'A' ≤ c ∧ c ≤ 'Z' then Char.ofNat (c.toNat + 32) else c

def isSlugChar (c : Char) : Bool :=
  ('a' ≤ c && c ≤ 'z') || ('0' ≤ c && c ≤ '9')

/-- `replace(/[^a-z0-9]+/g, "-")`: each maximal run of non-slug characters
becomes a single hyphen.  `inRun` records whether the previous character was
part of such a run. -/
def hyphenRuns : Bool → List Char → List Char
  | _, [] => []
  | inRun, c :: cs =>
    if isSlugChar c then c :: hyphenRuns false cs
    else if inRun then hyphenRuns true cs
    else '-' :: hyphenRuns true cs

def trimHyphens (s : List Char) : List Char :=
  ((s.dropWhile (· = '-')).reverse.dropWhile (· = '-')).reverse

def slugify (input : List Char) : List Char :=
  let r := trimHyphens (hyphenRuns false (input.map asciiLower))
  if r = [] then "site".data else r

def orDefault (s : List Char) (d : List Char) : List Char :=
  if s = [] then d else s

def filenameForSite (site : GeneratedSite) : List Char :=
  slugify (orDefault site.title "site".data) ++ ".html".data

/-! ## buildStandaloneHtml (exportSite.ts lines 24-103) -/

def cssText : List Char :=
  (":root\x7b--bg:#ffffff;--fg:#0b1220;--brand:#1f8f4a;--brand-strong:#1aa052;--muted:#4a5a6a;--card:#ffffff;--border:#e3efe7;--radius:12px\x7d@media(prefers-color-scheme:dark)\x7b:root\x7b--bg:#0b1210;--fg:#f7faf8;--brand:#22b15b;--brand-strong:#27c566;--muted:#9fb3a6;--card:#0e1713;--border:#1e2a24\x7d\x7d*\x7bbox-sizing:border-box\x7dhtml,body\x7bheight:100%\x7dbody\x7bmargin:0;background:var(--bg);color:var(--fg);font:16px/1.6 system-ui,-apple-system,Segoe UI,Roboto,Ubuntu,Cantarell,Noto Sans,sans-serif\x7da\x7bcolor:inherit\x7dimg\x7bmax-width:100%;display:block\x7dbutton\x7bfont:inherit\x7d\n" ++
  ".container\x7bmax-width:1080px;margin-inline:auto;padding:0 24px\x7d\n" ++
  ".hero\x7bposition:relative;overflow:hidden;padding:72px 0\x7d\n" ++
  ".hero .glow\x7bposition:absolute;inset:-120px;background:radial-gradient(600px 240px at 50% 0%, rgba(34,177,91,0.2), transparent 70%);filter:blur(20px);pointer-events:none\x7d\n" ++
  ".hero h1\x7bfont-size:clamp(32px,6vw,56px);line-height:1.1;margin:0;background:linear-gradient(135deg,var(--brand),var(--brand-strong));-webkit-background-clip:text;background-clip:text;color:transparent\x7d\n" ++
  ".hero p\x7bmargin:16px auto 0;max-width:720px;color:var(--muted);font-size:18px\x7d\n" ++
  ".btn\x7bdisplay:inline-flex;align-items:center;justify-content:center;gap:10px;height:44px;padding:0 20px;border-radius:12px;border:1px solid var(--border);background:linear-gradient(135deg,var(--brand),var(--brand-strong));color:white;box-shadow:0 10px 30px -12px rgba(34,177,91,0.45);cursor:pointer;transition:transform .12s ease,filter .2s ease\x7d\n" ++
  ".btn:hover\x7bfilter:brightness(1.05)\x7d\n" ++
  ".section\x7bpadding:72px 0\x7d\n" ++
  ".card\x7bbackground:var(--card);border:1px solid var(--border);border-radius:var(--radius);box-shadow:0 10px 30px -12px rgba(34,177,91,0.25);padding:24px\x7d\n" ++
  ".grid\x7bdisplay:grid;gap:20px\x7d\n" ++
  ".grid-3\x7bgrid-template-columns:repeat(auto-fit,minmax(240px,1fr))\x7d\n" ++
  ".center\x7btext-align:center\x7d\n" ++
  ".h2\x7bfont-size:28px;margin:0 0 24px\x7d\n" ++
  ".quote\x7bfont-size:22px;margin:0\x7d\n" ++
  ".author\x7bmargin-top:12px;color:var(--muted)\x7d\n").data

/-- A JavaScript conditional `x ? f(x) : ""` on an optional string field:
`undefined` and the empty string are both falsy. -/
def optPart (o : Option (List Char)) (f : List Char → List Char) : List Char :=
  match o with
  | none => []
  | some s => if s = [] then [] else f s

def featureItemHtml (item : FeatureItem) : List Char :=
  "<article class=\"card\"><h3 style=\"margin:0 0 8px;font-size:18px\">".data ++
  escapeHtml item.title ++
  "</h3><p style=\"margin:0;color:var(--muted)\">".data ++
  escapeHtml item.description ++
  "</p></article>".data

def sectionHtml : Section → List Char
  | .hero headline subheadline ctaLabel =>
    "<section class=\"hero\"><div class=\"glow\"></div><div class=\"container center\"><h1>".data ++
    escapeHtml headline ++ "</h1>".data ++
    optPart subheadline (fun s => "<p>".data ++ escapeHtml s ++ "</p>".data) ++
    optPart ctaLabel (fun s =>
      "<div style=\"margin-top:28px\"><button class=\"btn\">".data ++ escapeHtml s ++
      "</button></div>".data) ++
    "</div></section>".data
  | .features title items =>
    "<section class=\"section\"><div class=\"container\">".data ++
    optPart title (fun s => "<h2 class=\"h2\">".data ++ escapeHtml s ++ "</h2>".data) ++
    "<div class=\"grid grid-3\">".data ++
    (items.map featureItemHtml).flatten ++
    "</div></div></section>".data
  | .testimonial quote author =>
    "<section class=\"section\"><div class=\"container\"><figure class=\"card center\"><blockquote class=\"quote\">“".data ++
    escapeHtml quote ++
    "”</blockquote><figcaption class=\"author\">— ".data ++
    escapeHtml author ++
    "</figcaption></figure></div></section>".data
  | .cta headline ctaLabel =>
    "<section class=\"section\"><div class=\"container center\"><h2 class=\"h2\">".data ++
    escapeHtml headline ++ "</h2>".data ++
    optPart ctaLabel (fun s =>
      "<div style=\"margin-top:16px\"><button class=\"btn\">".data ++ escapeHtml s ++
      "</button></div>".data) ++
    "</div></section>".data

def sectionsHtml (site : GeneratedSite) : List Char :=
  List.intercalate "\n".data (site.sections.map sectionHtml)

/-- Document text before the interpolated title. -/
def htmlP1 : List Char :=
  "<!doctype html>\n<html lang=\"en\">\n  <head>\n    <meta charset=\"utf-8\" />\n    <meta name=\"viewport\" content=\"width=device-width, initial-scale=1\" />\n    <meta name=\"color-scheme\" content=\"light dark\" />\n    <title>".data

/-- Document text between the title and the `<body>` tag (includes the inlined
stylesheet). -/
def htmlP2 : List Char :=
  "</title>\n    <style>".data ++ cssText ++ "</style>\n  </head>\n  ".data

def buildStandaloneHtml (site : GeneratedSite) : List Char :=
  let theme := site.theme.getD Theme.green
  htmlP1 ++ escapeHtml (orDefault site.title "Site".data) ++ htmlP2 ++
  "<body>".data ++ "\n    ".data ++ sectionsHtml site ++ "\n  ".data ++
  "</body>".data ++ "\n</html>".data

/-! ## Characterization of escapeHtml -/

theorem replaceAllC_append (c : Char) (r x y : List Char) :
    replaceAllC c r (x ++ y) = replaceAllC c r x ++ replaceAllC c r y := by
  induction x with
  | nil => rfl
  | cons a as ih => simp [replaceAllC, ih, List.append_assoc]

theorem escapeHtml_append (x y : List Char) :
    escapeHtml (x ++ y) = escapeHtml x ++ escapeHtml y := by
  simp [escapeHtml, replaceAllC_append]

theorem escapeHtml_single (a : Char) : escapeHtml [a] = escCharSpec a := by
  by_cases h1 : a = '&'
  · subst h1; rfl
  by_cases h2 : a = '<'
  · subst h2; rfl
  by_cases h3 : a = '>'
  · subst h3; rfl
  by_cases h4 : a = '"'
  · subst h4; rfl
  by_cases h5 : a = '\x27'
  · subst h5; rfl
  simp [escapeHtml, replaceAllC, escCharSpec, h1, h2, h3, h4, h5]

theorem escapeHtml_eq_flatMap (s : List Char) : escapeHtml s = s.flatMap escCharSpec := by
  induction s with
  | nil => rfl
  | cons a as ih =>
    calc escapeHtml (a :: as) = escapeHtml ([a] ++ as) := rfl
      _ = escapeHtml [a] ++ escapeHtml as := escapeHtml_append _ _
      _ = escCharSpec a ++ as.flatMap escCharSpec := by rw [escapeHtml_single, ih]
      _ = (a :: as).flatMap escCharSpec := by simp

theorem escapeHtml_no_lt (s : List Char) : ∀ c ∈ escapeHtml s, c ≠ '<' := by
  intro c hc hlt
  subst hlt
  rw [escapeHtml_eq_flatMap] at hc
  obtain ⟨b, _, hcb⟩ := List.mem_flatMap.mp hc
  simp only [escCharSpec] at hcb
  split_ifs at hcb with h1 h2 h3 h4 h5
  · exact absurd hcb (by decide)
  · exact absurd hcb (by decide)
  · exact absurd hcb (by decide)
  · exact absurd hcb (by decide)
  · exact absurd hcb (by decide)
  · simp only [List.mem_singleton] at hcb
    exact h2 hcb.symm

theorem escapeHtml_no_gt (s : List Char) : ∀ c ∈ escapeHtml s, c ≠ '>' := by
  intro c hc hlt
  subst hlt
  rw [escapeHtml_eq_flatMap] at hc
  obtain ⟨b, _, hcb⟩ := List.mem_flatMap.mp hc
  simp only [escCharSpec] at hcb
  split_ifs at hcb with h1 h2 h3 h4 h5
  · exact absurd hcb (by decide)
  · exact absurd hcb (by decide)
  · exact absurd hcb (by decide)
  · exact absurd hcb (by decide)
  · exact absurd hcb (by decide)
  · simp only [List.mem_singleton] at hcb
    exact h3 hcb.symm

/-! ## Substring occurrences (JS `indexOf` / `lastIndexOf` on `List Char`) -/

/-- `begOf p s`: `p` is a prefix of `s` (Boolean). -/
def begOf : List Char → List Char → Bool
  | [], _ => true
  | _ :: _, [] => false
  | a :: as, b :: bs => a == b && begOf as bs

/-- `hasOcc p s`: `p` occurs as a contiguous substring of `s`. -/
def hasOcc (p : List Char) : List Char → Bool
  | [] => begOf p []
  | c :: cs => begOf p (c :: cs) || hasOcc p cs

/-- Index of the first occurrence of `p` in `s` (JS `String.prototype.indexOf`,
with `none` for `-1`). -/
def firstOcc (p : List Char) : List Char → Option Nat
  | [] => if begOf p [] then some 0 else none
  | c :: cs => if begOf p (c :: cs) then some 0 else (firstOcc p cs).map (· + 1)

/-- Index of the last occurrence of `p` in `s` (JS
`String.prototype.lastIndexOf`, with `none` for `-1`). -/
def lastOcc (p : List Char) : List Char → Option Nat
  | [] => if begOf p [] then some 0 else none
  | c :: cs =>
    match lastOcc p cs with
    | some i => some (i + 1)
    | none => if begOf p (c :: cs) then some 0 else none

theorem begOf_iff (p s : List Char) : begOf p s = true ↔ p <+: s := by
  induction p generalizing s with
  | nil => simp [begOf]
  | cons a as ih =>
    cases s with
    | nil => simp [begOf]
    | cons b bs => simp [begOf, List.cons_prefix_cons, ih bs, and_comm]

theorem begOf_append_left (p x y : List Char) (h : p.length ≤ x.length) :
    begOf p (x ++ y) = begOf p x := by
  induction p generalizing x with
  | nil => simp [begOf]
  | cons a as ih =>
    cases x with
    | nil => simp at h
    | cons b bs =>
      simp only [List.cons_append, begOf]
      congr 1
      exact ih bs (by simpa using h)

theorem begOf_append_split (p x y : List Char) (hlen : x.length ≤ p.length)
    (h : begOf p (x ++ y) = true) :
    x = p.take x.length ∧ begOf (p.drop x.length) y = true := by
  induction x generalizing p with
  | nil => simpa using h
  | cons b bs ih =>
    cases p with
    | nil => simp at hlen
    | cons a as =>
      simp only [List.cons_append, begOf, Bool.and_eq_true, beq_iff_eq] at h
      obtain ⟨hab, hrest⟩ := h
      obtain ⟨h1, h2⟩ := ih as (by simpa using hlen) hrest
      refine ⟨?_, by simpa using h2⟩
      simp [List.take_cons, hab, ← h1]

theorem hasOcc_iff (p s : List Char) :
    hasOcc p s = true ↔ ∃ i, begOf p (s.drop i) = true := by
  induction s with
  | nil =>
    constructor
    · intro h; exact ⟨0, h⟩
    · rintro ⟨i, h⟩; simpa using h
  | cons c cs ih =>
    simp only [hasOcc, Bool.or_eq_true]
    constructor
    · rintro (h | h)
      · exact ⟨0, h⟩
      · obtain ⟨i, hi⟩ := ih.mp h
        exact ⟨i + 1, by simpa using hi⟩
    · rintro ⟨i, hi⟩
      cases i with
      | zero => exact Or.inl (by simpa using hi)
      | succ j => exact Or.inr (ih.mpr ⟨j, by simpa using hi⟩)

/-- No occurrence of `p` starts strictly inside `a` when `a` is followed by
`rest`. -/
def NoWin (p a rest : List Char) : Prop :=
  ∀ i, i < a.length → begOf p ((a ++ rest).drop i) = false

theorem noWin_append (p x y rest : List Char) (h1 : NoWin p x (y ++ rest))
    (h2 : NoWin p y rest) : NoWin p (x ++ y) rest := by
  intro i hi
  rcases Nat.lt_or_ge i x.length with h | h
  · have := h1 i h
    simpa [List.append_assoc] using this
  · obtain ⟨j, rfl⟩ := Nat.exists_eq_add_of_le h
    have hj : j < y.length := by
      simp only [List.length_append] at hi; omega
    have := h2 j hj
    rw [List.append_assoc, List.drop_append]
    exact this

theorem noWin_headMiss (p0 : Char) (p a rest : List Char)
    (h : ∀ c ∈ a, c ≠ p0) : NoWin (p0 :: p) a rest := by
  intro i hi
  rw [List.drop_append_of_le_length (le_of_lt hi),
      List.drop_eq_getElem_cons hi]
  simp only [List.cons_append, begOf, Bool.and_eq_true, beq_iff_eq]
  have hmem : a[i] ∈ a := List.getElem_mem hi
  simp [Ne.symm (h _ hmem)]

/-- `sufOf t s`: `t` is a suffix of `s` (Boolean). -/
def sufOf (t s : List Char) : Bool := begOf t.reverse s.reverse

theorem sufOf_iff (t s : List Char) : sufOf t s = true ↔ t <:+ s := by
  rw [sufOf, begOf_iff]
  exact List.reverse_prefix

/-- No nonempty proper prefix of `p` is a suffix of `X`: an occurrence of `p`
starting inside `X` therefore cannot overflow past the end of `X`. -/
def tailRiskFree (p X : List Char) : Bool :=
  (List.range p.length).all fun k => k == 0 || ! sufOf (p.take k) X

theorem noWin_const (p X rest : List Char) (h1 : hasOcc p X = false)
    (h2 : tailRiskFree p X = true) : NoWin p X rest := by
  intro i hi
  by_contra hb
  rw [Bool.not_eq_false] at hb
  rw [List.drop_append_of_le_length (le_of_lt hi)] at hb
  rcases Nat.lt_or_ge (X.length - i) p.length with hm | hm
  · have hxd : (X.drop i).length ≤ p.length := by
      simp only [List.length_drop]; omega
    obtain ⟨heq, -⟩ := begOf_append_split p (X.drop i) rest hxd hb
    have hsuf : p.take (X.drop i).length <:+ X := by
      rw [← heq]; exact List.drop_suffix i X
    have hk := List.all_eq_true.mp h2 (X.drop i).length
      (by simp only [List.mem_range, List.length_drop]; omega)
    have hne : (X.drop i).length ≠ 0 := by
      simp only [List.length_drop]; omega
    have hb0 : ((X.drop i).length == 0) = false := by
      simpa using hne
    rw [hb0, Bool.false_or, Bool.not_eq_true'] at hk
    have hs := (sufOf_iff _ _).mpr hsuf
    rw [hk] at hs
    exact Bool.false_ne_true hs
  · have hlen : p.length ≤ (X.drop i).length := by
      simp only [List.length_drop]; omega
    rw [begOf_append_left p (X.drop i) rest hlen] at hb
    have : hasOcc p X = true := (hasOcc_iff p X).mpr ⟨i, hb⟩
    rw [h1] at this
    exact Bool.false_ne_true this

theorem begOf_append_self (p t : List Char) : begOf p (p ++ t) = true := by
  induction p with
  | nil => simp [begOf]
  | cons a as ih => simp [begOf, ih]

theorem firstOcc_base (p s : List Char) (hb : begOf p s = true) :
    firstOcc p s = some 0 := by
  cases s with
  | nil => simp [firstOcc, hb]
  | cons c cs => simp [firstOcc, hb]

theorem firstOcc_split (p a s : List Char) (hb : begOf p s = true)
    (hw : NoWin p a s) : firstOcc p (a ++ s) = some a.length := by
  induction a with
  | nil => simpa using firstOcc_base p s hb
  | cons c cs ih =>
    have h0 : begOf p (c :: (cs ++ s)) = false := by
      have := hw 0 (by simp)
      simpa using this
    have ihw : NoWin p cs s := by
      intro i hi
      have := hw (i + 1) (by simp only [List.length_cons]; omega)
      simpa using this
    simp [firstOcc, List.cons_append, h0, ih ihw]

theorem lastOcc_none (p s : List Char) (h : hasOcc p s = false) :
    lastOcc p s = none := by
  induction s with
  | nil =>
    simp only [hasOcc] at h
    simp [lastOcc, h]
  | cons c cs ih =>
    simp only [hasOcc, Bool.or_eq_false_iff] at h
    simp [lastOcc, ih h.2, h.1]

theorem lastOcc_split (p c t : List Char) (hne : p ≠ [])
    (h : hasOcc p ((p ++ t).drop 1) = false) :
    lastOcc p (c ++ (p ++ t)) = some c.length := by
  induction c with
  | nil =>
    cases p with
    | nil => exact absurd rfl hne
    | cons q qs =>
      have hd : lastOcc (q :: qs) (qs ++ t) = none := by
        apply lastOcc_none
        simpa using h
      have hb : begOf (q :: qs) (q :: (qs ++ t)) = true := begOf_append_self (q :: qs) t
      simp [lastOcc, List.cons_append, hd, hb]
  | cons a as ih =>
    simp only [List.cons_append]
    simp [lastOcc, ih, List.length_cons]

/-! ## `<body>` extraction in buildProjectZip (exportSite.ts lines 118-124) -/

/-- `String.prototype.substring`: swaps its arguments when `a > b`. -/
def jsSubstring (a b : Nat) (s : List Char) : List Char :=
  if a ≤ b then (s.drop a).take (b - a) else (s.drop b).take (a - b)

def bodyOpenTag : List Char := "<body>".data

def bodyCloseTag : List Char := "</body>".data

/-- The `bodyContent` computation of `buildProjectZip`: the text between
the first `<body>` and the last `</body>`, or `""` when either is missing or
out of order. -/
def extractBodyContent (fullHtml : List Char) : List Char :=
  match firstOcc bodyOpenTag fullHtml, lastOcc bodyCloseTag fullHtml with
  | some o, some c => if o < c then jsSubstring (o + bodyOpenTag.length) c fullHtml else []
  | some _, none => []
  | none, _ => []

def headPart (site : GeneratedSite) : List Char :=
  htmlP1 ++ escapeHtml (orDefault site.title "Site".data) ++ htmlP2

def bodyInner (site : GeneratedSite) : List Char :=
  "\n    ".data ++ sectionsHtml site ++ "\n  ".data

theorem buildStandaloneHtml_decomp (site : GeneratedSite) :
    buildStandaloneHtml site =
      headPart site ++ (bodyOpenTag ++ (bodyInner site ++ (bodyCloseTag ++ "\n</html>".data))) := by
  simp [buildStandaloneHtml, headPart, bodyInner, bodyOpenTag, bodyCloseTag, List.append_assoc]

theorem firstOcc_body (site : GeneratedSite) :
    firstOcc bodyOpenTag (buildStandaloneHtml site) = some (headPart site).length := by
  rw [buildStandaloneHtml_decomp]
  apply firstOcc_split
  · exact begOf_append_self _ _
  · unfold headPart
    apply noWin_append
    · apply noWin_append
      · exact noWin_const _ _ _ (by decide) (by decide)
      · exact noWin_headMiss '<' "body>".data _ _ (escapeHtml_no_lt _)
    · exact noWin_const _ _ _ (by decide) (by decide)

theorem lastOcc_body (site : GeneratedSite) :
    lastOcc bodyCloseTag (buildStandaloneHtml site) =
      some ((headPart site).length + 6 + (bodyInner site).length) := by
  have hshape : buildStandaloneHtml site =
      ((headPart site ++ bodyOpenTag) ++ bodyInner site) ++ (bodyCloseTag ++ "\n</html>".data) := by
    rw [buildStandaloneHtml_decomp]
    simp [List.append_assoc]
  rw [hshape, lastOcc_split bodyCloseTag _ _ (by decide) (by decide)]
  simp only [List.length_append, bodyOpenTag, Option.some.injEq, List.length_cons,
    List.length_nil]

theorem extractBody_eq (site : GeneratedSite) :
    extractBodyContent (buildStandaloneHtml site) = bodyInner site := by
  rw [extractBodyContent, firstOcc_body, lastOcc_body]
  have h6 : bodyOpenTag.length = 6 := by decide
  have hlt : (headPart site).length < (headPart site).length + 6 + (bodyInner site).length := by
    omega
  simp only [hlt, if_true, jsSubstring, h6]
  rw [if_pos (by omega)]
  have hshape : buildStandaloneHtml site =
      (headPart site ++ bodyOpenTag) ++ (bodyInner site ++ (bodyCloseTag ++ "\n</html>".data)) := by
    rw [buildStandaloneHtml_decomp]
    simp [List.append_assoc]
  rw [hshape]
  have hdrop : ((headPart site ++ bodyOpenTag) ++
      (bodyInner site ++ (bodyCloseTag ++ "\n</html>".data))).drop
        ((headPart site).length + 6) =
      bodyInner site ++ (bodyCloseTag ++ "\n</html>".data) := by
    have hl : (headPart site).length + 6 = (headPart site ++ bodyOpenTag).length := by
      simp [List.length_append, h6]
    rw [hl]
    exact List.drop_left _ _
  rw [hdrop]
  have harith : (headPart site).length + 6 + (bodyInner site).length -
      ((headPart site).length + 6) = (bodyInner site).length := by omega
  rw [harith]
  exact List.take_left _ _

/-! ## JSON values

`JSON.parse` / `JSON.stringify` are external library functions; they are
modelled here on the string/array/object/bool/null fragment of JSON, which
covers every value this program produces (`site.json`, the schema inputs) and
inspects (Gemini response bodies). -/

mutual

inductive Json where
  | str (s : List Char)
  | bool (b : Bool)
  | null
  | arr (elems : JList)
  | obj (members : JObj)

inductive JList where
  | nil
  | cons (hd : Json) (tl : JList)

inductive JObj where
  | nil
  | cons (key : List Char) (val : Json) (tl : JObj)

end

mutual

def jsize : Json → Nat
  | .str _ => 1
  | .bool _ => 1
  | .null => 1
  | .arr l => 1 + jlsize l
  | .obj o => 1 + josize o

def jlsize : JList → Nat
  | .nil => 1
  | .cons v t => 1 + jsize v + jlsize t

def josize : JObj → Nat
  | .nil => 1
  | .cons _ v t => 1 + jsize v + josize t

end

def listOfJ : List Json → JList
  | [] => .nil
  | v :: t => .cons v (listOfJ t)

def objOfJ : List (List Char × Json) → JObj
  | [] => .nil
  | (k, v) :: t => .cons k v (objOfJ t)

/-! ## JSON.stringify(value, null, 2) -/

/-- Lowercase hexadecimal digit, as produced by `Number.prototype.toString(16)`. -/
def hexChar (n : Nat) : Char :=
  if n < 10 then Char.ofNat (48 + n) else Char.ofNat (87 + n)

/-- The string escaping of `JSON.stringify`: `"`, `\`, the named control
escapes, and `\u00xx` for the remaining control characters. -/
def escJChar (c : Char) : List Char :=
  if c = '"' then ['\\', '"']
  else if c = '\\' then ['\\', '\\']
  else if c = '\x08' then ['\\', 'b']
  else if c = '\x09' then ['\\', 't']
  else if c = '\x0a' then ['\\', 'n']
  else if c = '\x0c' then ['\\', 'f']
  else if c = '\x0d' then ['\\', 'r']
  else if c.toNat < 32 then ['\\', 'u', '0', '0', hexChar (c.toNat / 16), hexChar (c.toNat % 16)]
  else [c]

def escJStr (s : List Char) : List Char := s.flatMap escJChar

def quoteStr (s : List Char) : List Char := '"' :: (escJStr s ++ ['"'])

/-- Two-space indentation at nesting depth `d`. -/
def jind (d : Nat) : List Char := List.replicate (2 * d) ' '

mutual

def renderV (d : Nat) : Json → List Char
  | .str s => quoteStr s
  | .bool true => "true".data
  | .bool false => "false".data
  | .null => "null".data
  | .arr .nil => "[]".data
  | .arr (.cons v t) =>
    '[' :: '\n' :: (jind (d + 1) ++ renderV (d + 1) v ++ renderL (d + 1) t ++
      '\n' :: (jind d ++ [']']))
  | .obj .nil => "\x7b\x7d".data
  | .obj (.cons k v t) =>
    '\x7b' :: '\n' :: (jind (d + 1) ++ quoteStr k ++ ':' :: ' ' ::
      (renderV (d + 1) v ++ renderO (d + 1) t ++ '\n' :: (jind d ++ ['\x7d'])))

def renderL (d : Nat) : JList → List Char
  | .nil => []
  | .cons v t => ',' :: '\n' :: (jind d ++ renderV d v ++ renderL d t)

def renderO (d : Nat) : JObj → List Char
  | .nil => []
  | .cons k v t => ',' :: '\n' :: (jind d ++ quoteStr k ++ ':' :: ' ' :: (renderV d v ++ renderO d t))

end

/-- `JSON.stringify(v, null, 2)`. -/
def stringifyPretty (v : Json) : List Char := renderV 0 v

/-! ## JSON.parse -/

def isWsChar (c : Char) : Bool :=
  c = ' ' || c = '\n' || c = '\t' || c = '\r'

def skipWs (s : List Char) : List Char := s.dropWhile isWsChar

def hexVal (c : Char) : Option Nat :=
  if '0' ≤ c ∧ c ≤ '9' then some (c.toNat - 48)
  else if 'a' ≤ c ∧ c ≤ 'f' then some (c.toNat - 87)
  else if 'A' ≤ c ∧ c ≤ 'F' then some (c.toNat - 55)
  else none

def escDecode (c : Char) : Option Char :=
  if c = '"' then some '"'
  else if c = '\\' then some '\\'
  else if c = '/' then some '/'
  else if c = 'b' then some '\x08'
  else if c = 'f' then some '\x0c'
  else if c = 'n' then some '\x0a'
  else if c = 'r' then some '\x0d'
  else if c = 't' then some '\x09'
  else none

/-- Parse the body of a JSON string literal (after the opening quote), up to
and including the closing quote.  Unescaped control characters are rejected,
as in `JSON.parse`. -/
def pStr : List Char → Option (List Char × List Char)
  | [] => none
  | c :: r =>
    if c = '"' then some ([], r)
    else if c = '\\' then
      match r with
      | [] => none
      | e :: r2 =>
        if e = 'u' then
          match r2 with
          | h1 :: h2 :: h3 :: h4 :: r3 =>
            match hexVal h1, hexVal h2, hexVal h3, hexVal h4, pStr r3 with
            | some a, some b, some x, some y, some (cs, rest) =>
              some (Char.ofNat (4096 * a + 256 * b + 16 * x + y) :: cs, rest)
            | _, _, _, _, _ => none
          | _ => none
        else
          match escDecode e, pStr r2 with
          | some ec, some (cs, rest) => some (ec :: cs, rest)
          | _, _ => none
    else if c.toNat < 32 then none
    else
      match pStr r with
      | some (cs, rest) => some (c :: cs, rest)
      | none => none

mutual

def pVal : Nat → List Char → Option (Json × List Char)
  | 0, _ => none
  | n + 1, s =>
    match skipWs s with
    | [] => none
    | c :: r =>
      if c = '"' then
        match pStr r with
        | some (cs, rest) => some (.str cs, rest)
        | none => none
      else if c = '[' then pArr n r
      else if c = '\x7b' then pObj n r
      else if c = 't' then
        match r with
        | 'r' :: 'u' :: 'e' :: r2 => some (.bool true, r2)
        | _ => none
      else if c = 'f' then
        match r with
        | 'a' :: 'l' :: 's' :: 'e' :: r2 => some (.bool false, r2)
        | _ => none
      else if c = 'n' then
        match r with
        | 'u' :: 'l' :: 'l' :: r2 => some (.null, r2)
        | _ => none
      else none

def pArr : Nat → List Char → Option (Json × List Char)
  | 0, _ => none
  | n + 1, s =>
    if (skipWs s).head? = some ']' then some (.arr .nil, (skipWs s).tail)
    else
      match pVal n s with
      | some (v, rest) =>
        match pArrTail n rest with
        | some (t, rest2) => some (.arr (.cons v t), rest2)
        | none => none
      | none => none

def pArrTail : Nat → List Char → Option (JList × List Char)
  | 0, _ => none
  | n + 1, s =>
    match skipWs s with
    | ',' :: r =>
      match pVal n r with
      | some (v, rest) =>
        match pArrTail n rest with
        | some (t, rest2) => some (.cons v t, rest2)
        | none => none
      | none => none
    | ']' :: r => some (.nil, r)
    | _ => none

def pObj : Nat → List Char → Option (Json × List Char)
  | 0, _ => none
  | n + 1, s =>
    if (skipWs s).head? = some '\x7d' then some (.obj .nil, (skipWs s).tail)
    else
      match skipWs s with
      | '"' :: r =>
        match pStr r with
        | some (k, rest) =>
          match skipWs rest with
          | ':' :: r2 =>
            match pVal n r2 with
            | some (v, rest2) =>
              match pObjTail n rest2 with
              | some (t, rest3) => some (.obj (.cons k v t), rest3)
              | none => none
            | none => none
          | _ => none
        | none => none
      | _ => none

def pObjTail : Nat → List Char → Option (JObj × List Char)
  | 0, _ => none
  | n + 1, s =>
    match skipWs s with
    | ',' :: r =>
      match skipWs r with
      | '"' :: r1 =>
        match pStr r1 with
        | some (k, rest) =>
          match skipWs rest with
          | ':' :: r2 =>
            match pVal n r2 with
            | some (v, rest2) =>
              match pObjTail n rest2 with
              | some (t, rest3) => some (.cons k v t, rest3)
              | none => none
            | none => none
          | _ => none
        | none => none
      | _ => none
    | '\x7d' :: r => some (.nil, r)
    | _ => none

end

/-- `JSON.parse` on the modelled fragment: parse one value, then require only
trailing whitespace. -/
def jparse (s : List Char) : Option Json :=
  match pVal (s.length + 1) s with
  | some (v, rest) => if skipWs rest = [] then some v else none
  | none => none

/-! ## Round trip: parsing a pretty-printed value -/

theorem jsize_pos (v : Json) : 1 ≤ jsize v := by
  cases v <;> simp [jsize]

theorem jlsize_pos (l : JList) : 1 ≤ jlsize l := by
  cases l <;> simp [jlsize] <;> omega

theorem josize_pos (o : JObj) : 1 ≤ josize o := by
  cases o <;> simp [josize] <;> omega

theorem skipWs_cons_nonws (c : Char) (h : isWsChar c = false) (x : List Char) :
    skipWs (c :: x) = c :: x := by
  simp [skipWs, List.dropWhile_cons, h]

theorem skipWs_wsApp (a x : List Char) (h : ∀ c ∈ a, isWsChar c = true) :
    skipWs (a ++ x) = skipWs x := by
  induction a with
  | nil => rfl
  | cons c cs ih =>
    simp only [List.cons_append, skipWs, List.dropWhile_cons, h c (by simp)]
    exact ih fun y hy => h y (by simp [hy])

theorem jind_ws (d : Nat) : ∀ c ∈ jind d, isWsChar c = true := by
  intro c hc
  rw [jind] at hc
  rw [List.eq_of_mem_replicate hc]
  rfl

theorem skipWs_nlind (d : Nat) (x : List Char) :
    skipWs ('\n' :: (jind d ++ x)) = skipWs x := by
  have : '\n' :: (jind d ++ x) = ('\n' :: jind d) ++ x := rfl
  rw [this, skipWs_wsApp]
  intro c hc
  rcases List.mem_cons.mp hc with rfl | hc
  · rfl
  · exact jind_ws d c hc

theorem pVal_congr (n : Nat) (y z : List Char) (h : skipWs y = skipWs z) :
    pVal n y = pVal n z := by
  cases n with
  | zero => rfl
  | succ m => simp only [pVal, h]

/-- The first character of a rendered value. -/
def vHead : Json → Char
  | .str _ => '"'
  | .bool true => 't'
  | .bool false => 'f'
  | .null => 'n'
  | .arr _ => '['
  | .obj _ => '\x7b'

theorem renderV_head (d : Nat) (v : Json) : ∃ t, renderV d v = vHead v :: t := by
  cases v with
  | str s => exact ⟨_, rfl⟩
  | bool b => cases b <;> exact ⟨_, rfl⟩
  | null => exact ⟨_, rfl⟩
  | arr l => cases l <;> exact ⟨_, rfl⟩
  | obj o => cases o <;> exact ⟨_, rfl⟩

theorem vHead_not_ws (v : Json) : isWsChar (vHead v) = false := by
  cases v with
  | str s => rfl
  | bool b => cases b <;> rfl
  | null => rfl
  | arr l => rfl
  | obj o => rfl

theorem vHead_ne_rbracket (v : Json) : vHead v ≠ ']' := by
  cases v with
  | str s => simp [vHead]
  | bool b => cases b <;> simp [vHead]
  | null => simp [vHead]
  | arr l => simp [vHead]
  | obj o => simp [vHead]

theorem vHead_ne_rbrace (v : Json) : vHead v ≠ '\x7d' := by
  cases v with
  | str s => simp [vHead]
  | bool b => cases b <;> simp [vHead]
  | null => simp [vHead]
  | arr l => simp [vHead]
  | obj o => simp [vHead]

theorem hexVal_hexChar (n : Nat) (h : n < 16) : hexVal (hexChar n) = some n := by
  interval_cases n <;> decide

theorem pStr_round (k rest : List Char) : pStr (escJStr k ++ '"' :: rest) = some (k, rest) := by
  induction k with
  | nil =>
    simp only [escJStr, List.flatMap_nil, List.nil_append]
    rw [pStr.eq_def]
    simp
  | cons c cs ih =>
    have hstep : escJStr (c :: cs) ++ '"' :: rest = escJChar c ++ (escJStr cs ++ '"' :: rest) := by
      simp [escJStr, List.append_assoc]
    rw [hstep]
    by_cases h1 : c = '"'
    · subst h1
      simp only [escJChar, if_pos rfl, List.cons_append, List.nil_append]
      rw [pStr.eq_def]
      simp [escDecode, ih]
    by_cases h2 : c = '\\'
    · subst h2
      simp only [escJChar, if_neg h1, if_pos rfl, List.cons_append, List.nil_append]
      rw [pStr.eq_def]
      simp [escDecode, ih]
    by_cases h3 : c = '\x08'
    · subst h3
      simp only [escJChar, if_neg h1, if_neg h2, if_pos rfl, List.cons_append, List.nil_append]
      rw [pStr.eq_def]
      simp [escDecode, ih]
    by_cases h4 : c = '\x09'
    · subst h4
      simp only [escJChar, if_neg h1, if_neg h2, if_neg h3, if_pos rfl, List.cons_append,
        List.nil_append]
      rw [pStr.eq_def]
      simp [escDecode, ih]
    by_cases h5 : c = '\x0a'
    · subst h5
      simp only [escJChar, if_neg h1, if_neg h2, if_neg h3, if_neg h4, if_pos rfl,
        List.cons_append, List.nil_append]
      rw [pStr.eq_def]
      simp [escDecode, ih]
    by_cases h6 : c = '\x0c'
    · subst h6
      simp only [escJChar, if_neg h1, if_neg h2, if_neg h3, if_neg h4, if_neg h5, if_pos rfl,
        List.cons_append, List.nil_append]
      rw [pStr.eq_def]
      simp [escDecode, ih]
    by_cases h7 : c = '\x0d'
    · subst h7
      simp only [escJChar, if_neg h1, if_neg h2, if_neg h3, if_neg h4, if_neg h5, if_neg h6,
        if_pos rfl, List.cons_append, List.nil_append]
      rw [pStr.eq_def]
      simp [escDecode, ih]
    by_cases h8 : c.toNat < 32
    · have hdiv : c.toNat / 16 < 16 := by omega
      have hmod : c.toNat % 16 < 16 := Nat.mod_lt _ (by norm_num)
      simp only [escJChar, if_neg h1, if_neg h2, if_neg h3, if_neg h4, if_neg h5, if_neg h6,
        if_neg h7, if_pos h8, List.cons_append, List.nil_append]
      rw [pStr.eq_def]
      simp only [if_neg (by decide : ¬('\\' = '"')), if_pos (rfl : '\\' = '\\'),
        if_pos (rfl : 'u' = 'u'), hexVal_hexChar _ hdiv, hexVal_hexChar _ hmod,
        show hexVal '0' = some 0 by decide, ih]
      have hval : 4096 * 0 + 256 * 0 + 16 * (c.toNat / 16) + c.toNat % 16 = c.toNat := by
        omega
      rw [hval, Char.ofNat_toNat]
      simp
    · simp only [escJChar, if_neg h1, if_neg h2, if_neg h3, if_neg h4, if_neg h5, if_neg h6,
        if_neg h7, if_neg h8, List.cons_append, List.nil_append]
      rw [pStr.eq_def]
      simp [h1, h2, h8, ih]

theorem skipWs_rbracket (x : List Char) : skipWs (']' :: x) = ']' :: x :=
  skipWs_cons_nonws ']' (by decide) x

theorem skipWs_rbrace (x : List Char) : skipWs ('\x7d' :: x) = '\x7d' :: x :=
  skipWs_cons_nonws '\x7d' (by decide) x

theorem skipWs_comma (x : List Char) : skipWs (',' :: x) = ',' :: x :=
  skipWs_cons_nonws ',' (by decide) x

theorem skipWs_colon (x : List Char) : skipWs (':' :: x) = ':' :: x :=
  skipWs_cons_nonws ':' (by decide) x

theorem skipWs_quote (x : List Char) : skipWs ('"' :: x) = '"' :: x :=
  skipWs_cons_nonws '"' (by decide) x

theorem skipWs_space (x : List Char) : skipWs (' ' :: x) = skipWs x := by
  have h : isWsChar ' ' = true := by decide
  simp [skipWs, List.dropWhile_cons, h]

theorem skipWs_renderV (d : Nat) (v : Json) (x : List Char) :
    skipWs (renderV d v ++ x) = renderV d v ++ x := by
  obtain ⟨t, ht⟩ := renderV_head d v
  rw [ht, List.cons_append, skipWs_cons_nonws _ (vHead_not_ws v)]


theorem pVal_arr_step (n : Nat) (s X : List Char) (h : skipWs s = '[' :: X) :
    pVal (n + 1) s = pArr n X := by
  simp only [pVal, h]
  rfl

theorem pVal_obj_step (n : Nat) (s X : List Char) (h : skipWs s = '\x7b' :: X) :
    pVal (n + 1) s = pObj n X := by
  simp only [pVal, h]
  rfl

theorem pVal_str_step (n : Nat) (s X : List Char) (h : skipWs s = '"' :: X) :
    pVal (n + 1) s = (match pStr X with
      | some (cs, rest) => some (.str cs, rest)
      | none => none) := by
  simp only [pVal, h]
  rfl

theorem pVal_quote_step (n : Nat) (s k rest : List Char)
    (h : skipWs s = '"' :: (escJStr k ++ '"' :: rest)) :
    pVal (n + 1) s = some (.str k, rest) := by
  rw [pVal_str_step n s _ h, pStr_round]

theorem pVal_true_step (n : Nat) (s rest : List Char)
    (h : skipWs s = 't' :: 'r' :: 'u' :: 'e' :: rest) :
    pVal (n + 1) s = some (.bool true, rest) := by
  simp only [pVal, h]
  rfl

theorem pVal_false_step (n : Nat) (s rest : List Char)
    (h : skipWs s = 'f' :: 'a' :: 'l' :: 's' :: 'e' :: rest) :
    pVal (n + 1) s = some (.bool false, rest) := by
  simp only [pVal, h]
  rfl

theorem pVal_null_step (n : Nat) (s rest : List Char)
    (h : skipWs s = 'n' :: 'u' :: 'l' :: 'l' :: rest) :
    pVal (n + 1) s = some (.null, rest) := by
  simp only [pVal, h]
  rfl

theorem pArr_nil_step (n : Nat) (s rest : List Char) (h : skipWs s = ']' :: rest) :
    pArr (n + 1) s = some (.arr .nil, rest) := by
  simp only [pArr, h]
  rfl

theorem pArr_cons_run (n : Nat) (s rest rest2 : List Char) (v : Json) (t : JList)
    (hh : (skipWs s).head? ≠ some ']')
    (h1 : pVal n s = some (v, rest))
    (h2 : pArrTail n rest = some (t, rest2)) :
    pArr (n + 1) s = some (.arr (.cons v t), rest2) := by
  simp only [pArr, if_neg hh, h1, h2]

theorem pArrTail_nil_step (n : Nat) (s rest : List Char) (h : skipWs s = ']' :: rest) :
    pArrTail (n + 1) s = some (.nil, rest) := by
  simp only [pArrTail, h]

theorem pArrTail_cons_run (n : Nat) (s r rest rest2 : List Char) (v : Json) (t : JList)
    (h : skipWs s = ',' :: r)
    (hv : pVal n r = some (v, rest))
    (ht : pArrTail n rest = some (t, rest2)) :
    pArrTail (n + 1) s = some (.cons v t, rest2) := by
  simp only [pArrTail, h, hv, ht]

theorem pObj_nil_step (n : Nat) (s rest : List Char) (h : skipWs s = '\x7d' :: rest) :
    pObj (n + 1) s = some (.obj .nil, rest) := by
  simp only [pObj, h]
  rfl

theorem pObj_cons_run (n : Nat) (s k r1 r2 rest2 rest3 : List Char) (v : Json) (t : JObj)
    (hm : skipWs s = '"' :: (escJStr k ++ '"' :: r1))
    (hcol : skipWs r1 = ':' :: r2)
    (hv : pVal n r2 = some (v, rest2))
    (ht : pObjTail n rest2 = some (t, rest3)) :
    pObj (n + 1) s = some (.obj (.cons k v t), rest3) := by
  simp only [pObj, hm, pStr_round, hcol, hv, ht]
  simp

theorem pObjTail_nil_step (n : Nat) (s rest : List Char) (h : skipWs s = '\x7d' :: rest) :
    pObjTail (n + 1) s = some (.nil, rest) := by
  simp only [pObjTail, h]

theorem pObjTail_cons_run (n : Nat) (s r k r1 r2 rest2 rest3 : List Char) (v : Json) (t : JObj)
    (h : skipWs s = ',' :: r)
    (hq : skipWs r = '"' :: (escJStr k ++ '"' :: r1))
    (hcol : skipWs r1 = ':' :: r2)
    (hv : pVal n r2 = some (v, rest2))
    (ht : pObjTail n rest2 = some (t, rest3)) :
    pObjTail (n + 1) s = some (.cons k v t, rest3) := by
  simp only [pObjTail, h, hq, pStr_round, hcol, hv, ht]

theorem parse_render_aux : ∀ n : Nat,
    (∀ v d rest, jsize v ≤ n → pVal n (renderV d v ++ rest) = some (v, rest)) ∧
    (∀ l d rest, jlsize l ≤ n →
      pArrTail n (renderL (d + 1) l ++ '\n' :: (jind d ++ (']' :: rest))) = some (l, rest)) ∧
    (∀ o d rest, josize o ≤ n →
      pObjTail n (renderO (d + 1) o ++ '\n' :: (jind d ++ ('\x7d' :: rest))) = some (o, rest)) := by
  intro n
  induction n using Nat.strong_induction_on with
  | _ n IH =>
  cases n with
  | zero =>
    refine ⟨fun v d rest h => ?_, fun l d rest h => ?_, fun o d rest h => ?_⟩
    · have := jsize_pos v; omega
    · have := jlsize_pos l; omega
    · have := josize_pos o; omega
  | succ m =>
    refine ⟨fun v d rest hsz => ?_, fun l d rest hsz => ?_, fun o d rest hsz => ?_⟩
    · -- pVal on a rendered value
      cases v with
      | str s =>
        have hshape : renderV d (Json.str s) ++ rest = '"' :: (escJStr s ++ '"' :: rest) := by
          simp [renderV, quoteStr, List.append_assoc]
        rw [hshape]
        exact pVal_quote_step m _ s rest (skipWs_quote _)
      | bool b =>
        cases b
        · show pVal (m + 1) ('f' :: 'a' :: 'l' :: 's' :: 'e' :: rest) = _
          exact pVal_false_step m _ rest (skipWs_cons_nonws 'f' (by decide) _)
        · show pVal (m + 1) ('t' :: 'r' :: 'u' :: 'e' :: rest) = _
          exact pVal_true_step m _ rest (skipWs_cons_nonws 't' (by decide) _)
      | null =>
        show pVal (m + 1) ('n' :: 'u' :: 'l' :: 'l' :: rest) = _
        exact pVal_null_step m _ rest (skipWs_cons_nonws 'n' (by decide) _)
      | arr l =>
        cases l with
        | nil =>
          simp only [jsize, jlsize] at hsz
          obtain ⟨m', rfl⟩ : ∃ m', m = m' + 1 := ⟨m - 1, by omega⟩
          show pVal (m' + 1 + 1) ('[' :: (']' :: rest)) = _
          rw [pVal_arr_step (m' + 1) _ _ (skipWs_cons_nonws '[' (by decide) _)]
          exact pArr_nil_step m' _ rest (skipWs_rbracket _)
        | cons v t =>
          have hv := jsize_pos v
          have ht := jlsize_pos t
          simp only [jsize, jlsize] at hsz
          obtain ⟨m', rfl⟩ : ∃ m', m = m' + 1 := ⟨m - 1, by omega⟩
          have IHm' := IH m' (by omega)
          have hshape : renderV d (Json.arr (.cons v t)) ++ rest =
              '[' :: ('\n' :: (jind (d + 1) ++ (renderV (d + 1) v ++
                (renderL (d + 1) t ++ '\n' :: (jind d ++ (']' :: rest)))))) := by
            simp [renderV, List.append_assoc]
          rw [hshape]
          rw [pVal_arr_step (m' + 1) _ _ (skipWs_cons_nonws '[' (by decide) _)]
          refine pArr_cons_run m' _
            (renderL (d + 1) t ++ '\n' :: (jind d ++ (']' :: rest))) rest v t ?_ ?_ ?_
          · rw [skipWs_nlind, skipWs_renderV]
            obtain ⟨tv, htv⟩ := renderV_head (d + 1) v
            rw [htv, List.cons_append]
            simp only [List.head?_cons]
            exact fun hc => vHead_ne_rbracket v (Option.some.inj hc)
          · rw [pVal_congr m' _ _ (skipWs_nlind (d + 1) _)]
            exact IHm'.1 v (d + 1) _ (by omega)
          · exact IHm'.2.1 t d rest (by omega)
      | obj o =>
        cases o with
        | nil =>
          simp only [jsize, josize] at hsz
          obtain ⟨m', rfl⟩ : ∃ m', m = m' + 1 := ⟨m - 1, by omega⟩
          show pVal (m' + 1 + 1) ('\x7b' :: ('\x7d' :: rest)) = _
          rw [pVal_obj_step (m' + 1) _ _ (skipWs_cons_nonws '\x7b' (by decide) _)]
          exact pObj_nil_step m' _ rest (skipWs_rbrace _)
        | cons k v t =>
          have hv := jsize_pos v
          have ht := josize_pos t
          simp only [jsize, josize] at hsz
          obtain ⟨m', rfl⟩ : ∃ m', m = m' + 1 := ⟨m - 1, by omega⟩
          have IHm' := IH m' (by omega)
          have hshape : renderV d (Json.obj (.cons k v t)) ++ rest =
              '\x7b' :: ('\n' :: (jind (d + 1) ++ ('"' :: (escJStr k ++ '"' :: ':' :: ' ' ::
                (renderV (d + 1) v ++
                  (renderO (d + 1) t ++ '\n' :: (jind d ++ ('\x7d' :: rest)))))))) := by
            simp [renderV, quoteStr, List.append_assoc]
          rw [hshape]
          rw [pVal_obj_step (m' + 1) _ _ (skipWs_cons_nonws '\x7b' (by decide) _)]
          refine pObj_cons_run m' _ k
            (':' :: ' ' :: (renderV (d + 1) v ++
              (renderO (d + 1) t ++ '\n' :: (jind d ++ ('\x7d' :: rest)))))
            (' ' :: (renderV (d + 1) v ++
              (renderO (d + 1) t ++ '\n' :: (jind d ++ ('\x7d' :: rest)))))
            (renderO (d + 1) t ++ '\n' :: (jind d ++ ('\x7d' :: rest))) rest v t ?_ ?_ ?_ ?_
          · rw [skipWs_nlind]
            exact skipWs_quote _
          · exact skipWs_colon _
          · rw [pVal_congr m' _ _ (skipWs_space _)]
            exact IHm'.1 v (d + 1) _ (by omega)
          · exact IHm'.2.2 t d rest (by omega)
    · -- pArrTail on a rendered tail
      cases l with
      | nil =>
        simp only [renderL, List.nil_append]
        exact pArrTail_nil_step m _ rest (by rw [skipWs_nlind]; exact skipWs_rbracket _)
      | cons v t =>
        have hv := jsize_pos v
        have ht := jlsize_pos t
        simp only [jlsize] at hsz
        have IHm := IH m (by omega)
        have hshape : renderL (d + 1) (JList.cons v t) ++ '\n' :: (jind d ++ (']' :: rest)) =
            ',' :: ('\n' :: (jind (d + 1) ++ (renderV (d + 1) v ++
              (renderL (d + 1) t ++ '\n' :: (jind d ++ (']' :: rest)))))) := by
          simp [renderL, List.append_assoc]
        rw [hshape]
        refine pArrTail_cons_run m _ _
          (renderL (d + 1) t ++ '\n' :: (jind d ++ (']' :: rest))) rest v t
          (skipWs_comma _) ?_ ?_
        · rw [pVal_congr m _ _ (skipWs_nlind (d + 1) _)]
          exact IHm.1 v (d + 1) _ (by omega)
        · exact IHm.2.1 t d rest (by omega)
    · -- pObjTail on a rendered tail
      cases o with
      | nil =>
        simp only [renderO, List.nil_append]
        exact pObjTail_nil_step m _ rest (by rw [skipWs_nlind]; exact skipWs_rbrace _)
      | cons k v t =>
        have hv := jsize_pos v
        have ht := josize_pos t
        simp only [josize] at hsz
        have IHm := IH m (by omega)
        have hshape : renderO (d + 1) (JObj.cons k v t) ++ '\n' :: (jind d ++ ('\x7d' :: rest)) =
            ',' :: ('\n' :: (jind (d + 1) ++ ('"' :: (escJStr k ++ '"' :: ':' :: ' ' ::
              (renderV (d + 1) v ++
                (renderO (d + 1) t ++ '\n' :: (jind d ++ ('\x7d' :: rest)))))))) := by
          simp [renderO, quoteStr, List.append_assoc]
        rw [hshape]
        refine pObjTail_cons_run m _ _ k
          (':' :: ' ' :: (renderV (d + 1) v ++
            (renderO (d + 1) t ++ '\n' :: (jind d ++ ('\x7d' :: rest)))))
          (' ' :: (renderV (d + 1) v ++
            (renderO (d + 1) t ++ '\n' :: (jind d ++ ('\x7d' :: rest)))))
          (renderO (d + 1) t ++ '\n' :: (jind d ++ ('\x7d' :: rest))) rest v t
          (skipWs_comma _) ?_ ?_ ?_ ?_
        · rw [skipWs_nlind]
          exact skipWs_quote _
        · exact skipWs_colon _
        · rw [pVal_congr m _ _ (skipWs_space _)]
          exact IHm.1 v (d + 1) _ (by omega)
        · exact IHm.2.2 t d rest (by omega)

mutual

theorem renderV_len : ∀ (d : Nat) (v : Json), jsize v ≤ (renderV d v).length
  | _, .str s => by simp [renderV, quoteStr, jsize]
  | _, .bool true => by simp [renderV, jsize]
  | _, .bool false => by simp [renderV, jsize]
  | _, .null => by simp [renderV, jsize]
  | _, .arr .nil => by simp [renderV, jsize, jlsize]
  | d, .arr (.cons v t) => by
    have h1 := renderV_len (d + 1) v
    have h2 := renderL_len (d + 1) t
    simp only [renderV, jsize, jlsize, List.length_append, List.length_cons]
    omega
  | _, .obj .nil => by simp [renderV, jsize, josize]
  | d, .obj (.cons k v t) => by
    have h1 := renderV_len (d + 1) v
    have h2 := renderO_len (d + 1) t
    simp only [renderV, jsize, josize, quoteStr, List.length_append, List.length_cons]
    omega

theorem renderL_len : ∀ (d : Nat) (l : JList), jlsize l ≤ (renderL d l).length + 1
  | _, .nil => by simp [renderL, jlsize]
  | d, .cons v t => by
    have h1 := renderV_len d v
    have h2 := renderL_len d t
    simp only [renderL, jlsize, List.length_append, List.length_cons]
    omega

theorem renderO_len : ∀ (d : Nat) (o : JObj), josize o ≤ (renderO d o).length + 1
  | _, .nil => by simp [renderO, josize]
  | d, .cons k v t => by
    have h1 := renderV_len d v
    have h2 := renderO_len d t
    simp only [renderO, josize, quoteStr, List.length_append, List.length_cons]
    omega

end

/-- Parsing a pretty-printed JSON value recovers the value: the
`JSON.parse`/`JSON.stringify` round trip. -/
theorem jparse_stringify (v : Json) : jparse (stringifyPretty v) = some v := by
  unfold jparse stringifyPretty
  have hfuel : jsize v ≤ (renderV 0 v).length + 1 := by
    have := renderV_len 0 v
    omega
  have h := (parse_render_aux ((renderV 0 v).length + 1)).1 v 0 [] hfuel
  rw [List.append_nil] at h
  rw [h]
  rfl

/-! ## Schema validation (SiteGenerator.tsx lines 21-104)

`SiteSchema`, `WebsiteSchema` and `ReactProjectSchema` are zod schemas;
`parse` on a JSON value either yields the typed value (unknown keys are
dropped, required keys are checked, `optional()` keys may be absent) or
fails.  Property access on a parsed JSON object takes the last occurrence of
a duplicated key, as in JavaScript. -/

def getField : JObj → List Char → Option Json
  | .nil, _ => none
  | .cons k v t, key =>
    match getField t key with
    | some r => some r
    | none => if k = key then some v else none

def asStr : Json → Option (List Char)
  | .str s => some s
  | _ => none

def asBool : Json → Option Bool
  | .bool b => some b
  | _ => none

/-- An `optional()` field: absent is fine, present with the wrong shape is a
validation failure. -/
def optField (ms : JObj) (k : List Char) (f : Json → Option α) : Option (Option α) :=
  match getField ms k with
  | none => some none
  | some j =>
    match f j with
    | some a => some (some a)
    | none => none

def parseTheme (s : List Char) : Option Theme :=
  if s = "green".data then some .green
  else if s = "light".data then some .light
  else if s = "dark".data then some .dark
  else none

def asTheme (j : Json) : Option Theme := (asStr j).bind parseTheme

def validateItem : Json → Option FeatureItem
  | .obj ms =>
    match (getField ms "title".data).bind asStr,
        (getField ms "description".data).bind asStr,
        optField ms "icon".data asStr with
    | some t, some dsc, some ic => some ⟨t, dsc, ic⟩
    | _, _, _ => none
  | _ => none

def validateItems : JList → Option (List FeatureItem)
  | .nil => some []
  | .cons j t =>
    match validateItem j, validateItems t with
    | some i, some r => some (i :: r)
    | _, _ => none

def validateSection : Json → Option Section
  | .obj ms =>
    match (getField ms "type".data).bind asStr with
    | some ty =>
      if ty = "hero".data then
        match (getField ms "headline".data).bind asStr,
            optField ms "subheadline".data asStr, optField ms "ctaLabel".data asStr with
        | some h, some sub, some cta => some (.hero h sub cta)
        | _, _, _ => none
      else if ty = "features".data then
        match optField ms "title".data asStr, getField ms "items".data with
        | some t, some (.arr xs) => (validateItems xs).map (Section.features t)
        | _, _ => none
      else if ty = "testimonial".data then
        match (getField ms "quote".data).bind asStr, (getField ms "author".data).bind asStr with
        | some q, some a => some (.testimonial q a)
        | _, _ => none
      else if ty = "cta".data then
        match (getField ms "headline".data).bind asStr, optField ms "ctaLabel".data asStr with
        | some h, some cta => some (.cta h cta)
        | _, _ => none
      else none
    | none => none
  | _ => none

def validateSections : JList → Option (List Section)
  | .nil => some []
  | .cons j t =>
    match validateSection j, validateSections t with
    | some sc, some r => some (sc :: r)
    | _, _ => none

/-- `SiteSchema.parse` (lines 21-57): `{title, theme?, sections.min(1)}`. -/
def validateSite : Json → Option GeneratedSite
  | .obj ms =>
    match (getField ms "title".data).bind asStr,
        optField ms "theme".data asTheme,
        getField ms "sections".data with
    | some t, some th, some (.arr xs) =>
      match validateSections xs with
      | some secs => if 1 ≤ secs.length then some ⟨t, th, secs⟩ else none
      | none => none
    | _, _, _ => none
  | _ => none

structure NodejsFiles where
  packageJson : List Char
  serverJs : List Char
  routes : Option (List (List Char × List Char))
deriving DecidableEq

structure WebsiteFiles where
  html : List Char
  css : List Char
  js : Option (List Char)
  nodejs : Option NodejsFiles
deriving DecidableEq

structure GeneratedWebsite where
  title : List Char
  description : List Char
  theme : Option Theme
  framework : Option (List Char)
  files : WebsiteFiles
  additionalFiles : Option (List (List Char × List Char))
  features : List (List Char)
  responsive : Bool
  interactive : Bool
deriving DecidableEq

/-- `z.record(z.string())`: any object whose values are all strings. -/
def validateRecord : JObj → Option (List (List Char × List Char))
  | .nil => some []
  | .cons k v t =>
    match asStr v, validateRecord t with
    | some s, some r => some ((k, s) :: r)
    | _, _ => none

def asRecord (j : Json) : Option (List (List Char × List Char)) :=
  match j with
  | .obj ms => validateRecord ms
  | _ => none

def validateNodejs : Json → Option NodejsFiles
  | .obj ms =>
    match (getField ms "packageJson".data).bind asStr,
        (getField ms "serverJs".data).bind asStr,
        optField ms "routes".data asRecord with
    | some p, some sv, some r => some ⟨p, sv, r⟩
    | _, _, _ => none
  | _ => none

def validateWebsiteFiles : Json → Option WebsiteFiles
  | .obj ms =>
    match (getField ms "html".data).bind asStr,
        (getField ms "css".data).bind asStr,
        optField ms "js".data asStr,
        optField ms "nodejs".data validateNodejs with
    | some h, some cssv, some jsv, some nd => some ⟨h, cssv, jsv, nd⟩
    | _, _, _, _ => none
  | _ => none

def validateStrList : JList → Option (List (List Char))
  | .nil => some []
  | .cons j t =>
    match asStr j, validateStrList t with
    | some s, some r => some (s :: r)
    | _, _ => none

/-- `WebsiteSchema.parse` (lines 59-78). -/
def validateWebsite : Json → Option GeneratedWebsite
  | .obj ms =>
    match (getField ms "title".data).bind asStr,
        (getField ms "description".data).bind asStr,
        optField ms "theme".data asTheme,
        optField ms "framework".data asStr,
        (getField ms "files".data).bind validateWebsiteFiles with
    | some t, some dsc, some th, some fw, some fl =>
      match optField ms "additionalFiles".data asRecord,
          getField ms "features".data,
          (getField ms "responsive".data).bind asBool,
          (getField ms "interactive".data).bind asBool with
      | some af, some (.arr fs), some rsp, some itc =>
        match validateStrList fs with
        | some fts => some ⟨t, dsc, th, fw, fl, af, fts, rsp, itc⟩
        | none => none
      | _, _, _, _ => none
    | _, _, _, _, _ => none
  | _ => none

structure ReactFiles where
  packageJson : List Char
  viteConfig : List Char
  tsConfig : List Char
  tailwindConfig : List Char
  postcssConfig : List Char
  indexHtml : List Char
  mainTsx : List Char
  appTsx : List Char
  appCss : List Char
  components : List (List Char × List Char)
  pages : List (List Char × List Char)
  lib : List (List Char × List Char)
deriving DecidableEq

structure GeneratedReactProject where
  title : List Char
  description : List Char
  theme : Option Theme
  framework : List Char
  files : ReactFiles
  additionalFiles : Option (List (List Char × List Char))
  features : List (List Char)
  responsive : Bool
  interactive : Bool
  shadcnComponents : List (List Char)
deriving DecidableEq

def validateReactFiles : Json → Option ReactFiles
  | .obj ms =>
    match (getField ms "packageJson".data).bind asStr,
        (getField ms "viteConfig".data).bind asStr,
        (getField ms "tsConfig".data).bind asStr,
        (getField ms "tailwindConfig".data).bind asStr,
        (getField ms "postcssConfig".data).bind asStr,
        (getField ms "indexHtml".data).bind asStr with
    | some p, some vt, some ts, some tw, some pc, some ih =>
      match (getField ms "mainTsx".data).bind asStr,
          (getField ms "appTsx".data).bind asStr,
          (getField ms "appCss".data).bind asStr,
          (getField ms "components".data).bind asRecord,
          (getField ms "pages".data).bind asRecord,
          (getField ms "lib".data).bind asRecord with
      | some mt, some at2, some ac, some cp, some pg, some lb =>
        some ⟨p, vt, ts, tw, pc, ih, mt, at2, ac, cp, pg, lb⟩
      | _, _, _, _, _, _ => none
    | _, _, _, _, _, _ => none
  | _ => none

/-- `ReactProjectSchema.parse` (lines 80-104): `framework` must be the literal
`"react-vite-typescript"`. -/
def validateReact : Json → Option GeneratedReactProject
  | .obj ms =>
    match (getField ms "title".data).bind asStr,
        (getField ms "description".data).bind asStr,
        optField ms "theme".data asTheme,
        (getField ms "framework".data).bind asStr,
        (getField ms "files".data).bind validateReactFiles with
    | some t, some dsc, some th, some fw, some fl =>
      if fw = "react-vite-typescript".data then
        match optField ms "additionalFiles".data asRecord,
            getField ms "features".data,
            (getField ms "responsive".data).bind asBool,
            (getField ms "interactive".data).bind asBool,
            getField ms "shadcnComponents".data with
        | some af, some (.arr fs), some rsp, some itc, some (.arr sh) =>
          match validateStrList fs, validateStrList sh with
          | some fts, some shc => some ⟨t, dsc, th, fw, fl, af, fts, rsp, itc, shc⟩
          | _, _ => none
        | _, _, _, _, _ => none
      else none
    | _, _, _, _, _ => none
  | _ => none

/-! ## The site.json manifest: JSON value of a GeneratedSite

The JavaScript object passed to `JSON.stringify(site, null, 2)` has its keys
in schema order, optional keys being present only when set. -/

def themeText : Theme → List Char
  | .green => "green".data
  | .light => "light".data
  | .dark => "dark".data

def optEntry (k : List Char) : Option (List Char) → List (List Char × Json)
  | none => []
  | some s => [(k, .str s)]

def itemJson (it : FeatureItem) : Json :=
  .obj (objOfJ ([("title".data, .str it.title), ("description".data, .str it.description)] ++
    optEntry "icon".data it.icon))

def sectionJson : Section → Json
  | .hero h sub cta =>
    .obj (objOfJ ([("type".data, .str "hero".data), ("headline".data, .str h)] ++
      optEntry "subheadline".data sub ++ optEntry "ctaLabel".data cta))
  | .features t items =>
    .obj (objOfJ ([("type".data, .str "features".data)] ++ optEntry "title".data t ++
      [("items".data, .arr (listOfJ (items.map itemJson)))]))
  | .testimonial q a =>
    .obj (objOfJ [("type".data, .str "testimonial".data), ("quote".data, .str q),
      ("author".data, .str a)])
  | .cta h cta =>
    .obj (objOfJ ([("type".data, .str "cta".data), ("headline".data, .str h)] ++
      optEntry "ctaLabel".data cta))

def siteJson (site : GeneratedSite) : Json :=
  .obj (objOfJ ([("title".data, .str site.title)] ++
    (match site.theme with
     | some t => [("theme".data, Json.str (themeText t))]
     | none => []) ++
    [("sections".data, .arr (listOfJ (site.sections.map sectionJson)))]))

/-- The text written to `site.json`: `JSON.stringify(site, null, 2)`. -/
def stringifySite (site : GeneratedSite) : List Char := stringifyPretty (siteJson site)

/-! ## buildProjectZip (exportSite.ts lines 113-134)

The zip container itself is the JSZip library; what is modelled is the list of
(path, content) pairs handed to `zip.file`, in call order. -/

def stylesCssText : List Char :=
  "/* Project styles */\n/* You can split this file as needed. */\n".data

def scriptJsText : List Char :=
  "// Optional interactivity can be added here.\n// Example: smooth scroll for same-page anchors.\n(function()\x7b\n  document.addEventListener(\x27click\x27, function(e)\x7b\n    const a = e.target instanceof Element ? e.target.closest(\x27a[href^=\"#\"]\x27) : null;\n    if(!a) return;\n    const id = a.getAttribute(\x27href\x27);\n    if(!id || id.length < 2) return;\n    const el = document.querySelector(id);\n    if(!el) return;\n    e.preventDefault();\n    el.scrollIntoView(\x7bbehavior:\x27smooth\x27\x7d);\n  \x7d);\n\x7d)();\n".data

def readmeText (site : GeneratedSite) : List Char :=
  "# ".data ++ escapeHtml (orDefault site.title "Site".data) ++
  "\n\nGenerated with root dev.\n\n- Open `index.html` in your browser.\n- Edit `styles.css` and `script.js` to customize.\n- Site structure is mirrored from `site.json`.\n".data

def zipIndexHtml (site : GeneratedSite) : List Char :=
  "<!doctype html>\n<html lang=\"en\">\n  <head>\n    <meta charset=\"utf-8\" />\n    <meta name=\"viewport\" content=\"width=device-width, initial-scale=1\" />\n    <title>".data ++
  escapeHtml (orDefault site.title "Site".data) ++
  "</title>\n    <link rel=\"stylesheet\" href=\"styles.css\" />\n  </head>\n  <body>\n    ".data ++
  extractBodyContent (buildStandaloneHtml site) ++
  "\n    <script src=\"script.js\"></script>\n  </body>\n</html>".data

def buildProjectFiles (site : GeneratedSite) : List (List Char × List Char) :=
  let projectSlug := slugify (orDefault site.title "site".data)
  [("index.html".data, zipIndexHtml site),
   ("styles.css".data, stylesCssText),
   ("script.js".data, scriptJsText),
   ("site.json".data, stringifySite site),
   ("README.md".data, readmeText site)]

/-! ## Generation flow (SiteGenerator.tsx: handleGenerate, attemptAutoFix,
cleanToJson) -/

inductive GenerationType where
  | preview
  | fullstack
  | reactVite
deriving DecidableEq

inductive Parsed where
  | site (s : GeneratedSite)
  | website (w : GeneratedWebsite)
  | react (r : GeneratedReactProject)
deriving DecidableEq

/-- `.replace(/^```json\n?/i, "")`. -/
def stripFenceJson (s : List Char) : List Char :=
  match s with
  | '`' :: '`' :: '`' :: a :: b :: c :: d :: r =>
    if asciiLower a = 'j' ∧ asciiLower b = 's' ∧ asciiLower c = 'o' ∧ asciiLower d = 'n' then
      match r with
      | '\n' :: r2 => r2
      | _ => r
    else s
  | _ => s

/-- `.replace(/^```\n?/i, "")`. -/
def stripFencePlain (s : List Char) : List Char :=
  match s with
  | '`' :: '`' :: '`' :: r =>
    match r with
    | '\n' :: r2 => r2
    | _ => r
  | _ => s

/-- `.replace(/\n?```$/i, "")`. -/
def stripTrailFence (s : List Char) : List Char :=
  match s.reverse with
  | '`' :: '`' :: '`' :: r =>
    match r with
    | '\n' :: r2 => r2.reverse
    | _ => r.reverse
  | _ => s

def isJsWs (c : Char) : Bool :=
  c = ' ' || c = '\t' || c = '\n' || c = '\r' || c = '\x0b' || c = '\x0c' || c = '\xa0'

def jsTrim (s : List Char) : List Char :=
  ((s.dropWhile isJsWs).reverse.dropWhile isJsWs).reverse

/-- `cleanToJson` (lines 108-114). -/
def cleanToJson (s : List Char) : List Char :=
  jsTrim (stripTrailFence (stripFencePlain (stripFenceJson s)))

/-- `data?.candidates?.[0]?.content?.parts?.[0]?.text`, followed by the
`if (!text)` check: an absent path, a non-string, and the empty string all
fail. -/
def extractText (j : Json) : Option (List Char) :=
  match j with
  | .obj ms =>
    match getField ms "candidates".data with
    | some (.arr (.cons c0 _)) =>
      match c0 with
      | .obj cms =>
        match getField cms "content".data with
        | some (.obj oms) =>
          match getField oms "parts".data with
          | some (.arr (.cons p0 _)) =>
            match p0 with
            | .obj pms =>
              match getField pms "text".data with
              | some (.str t) => if t = [] then none else some t
              | _ => none
            | _ => none
          | _ => none
        | _ => none
      | _ => none
    | _ => none
  | _ => none

structure HttpResponse where
  status : Nat
  body : List Char
deriving DecidableEq

/-- `res.ok`: HTTP status in the 2xx range. -/
def okStatus (n : Nat) : Bool := 200 ≤ n && n < 300

/-- `errorData?.error?.status` on the parsed error body. -/
def getErrStatus (j : Json) : Option (List Char) :=
  match j with
  | .obj ms =>
    match getField ms "error".data with
    | some (.obj ems) =>
      match getField ems "status".data with
      | some (.str s) => some s
      | _ => none
    | _ => none
  | _ => none

inductive ErrClass where
  | unparsable
  | overload
  | hard
deriving DecidableEq

/-- Classification of a non-2xx response, as done identically at the primary
call site (lines 403-411) and inside `attemptAutoFix` (lines 150-158):
`JSON.parse` the body (a parse failure escapes as its own thrown error), then
treat exactly HTTP 503 with `error.status === "UNAVAILABLE"` as transient
overload; every other parsed non-2xx body is a hard error. -/
def classifyError (status : Nat) (body : List Char) : ErrClass :=
  match jparse body with
  | none => .unparsable
  | some j =>
    if status = 503 ∧ getErrStatus j = some "UNAVAILABLE".data then .overload else .hard

inductive CallKind where
  | primary
  | fixer
deriving DecidableEq

/-- One upstream `generateContent` request: which call site issued it and the
`generationConfig` it carried.  Temperatures are in tenths (the primary call
pins 0.7, the fixer 0). -/
structure Call where
  kind : CallKind
  temp10 : Nat
  maxTok : Nat
deriving DecidableEq

def primaryTemp10 : Nat := 7

def primaryMaxTok : GenerationType → Nat
  | .reactVite => 12000
  | .fullstack => 8000
  | .preview => 1200

def fixerMaxTok : GenerationType → Nat
  | .reactVite => 6000
  | .fullstack => 4000
  | .preview => 800

/-- `JSON.parse` + the zod schema for the active generation type. -/
def parseForType (gt : GenerationType) (txt : List Char) : Option Parsed :=
  match jparse txt with
  | none => none
  | some j =>
    match gt with
    | .preview => (validateSite j).map .site
    | .fullstack => (validateWebsite j).map .website
    | .reactVite => (validateReact j).map .react

/-- `attemptAutoFix` (lines 117-164), given the fixer call's HTTP response:
returns the cleaned repaired text, or `none` for any of its throw paths
(non-2xx status of either classification, unparsable body, missing text). -/
def runAutoFix (resp : HttpResponse) : Option (List Char) :=
  if okStatus resp.status then
    match jparse resp.body with
    | none => none
    | some j =>
      match extractText j with
      | none => none
      | some t => some (cleanToJson t)
  else
    match classifyError resp.status resp.body with
    | _ => none

inductive GenOutcome where
  | errMissingKey
  | errEmptyPrompt
  | errOverload
  | errGemini (status : Nat)
  | errBodyUnparsable
  | errNoContent
  | ok (p : Parsed)
  | errAutoFixFailed
deriving DecidableEq

/-- `handleGenerate` (lines 357-522), as a function of the configuration and
of the (at most two) upstream HTTP responses: the outcome, and the trace of
upstream generation calls actually issued, in order. -/
def handleGenerate (apiKey prompt : List Char) (gt : GenerationType)
    (presp fresp : HttpResponse) : GenOutcome × List Call :=
  if apiKey = [] then (.errMissingKey, [])
  else if jsTrim prompt = [] then (.errEmptyPrompt, [])
  else
    let pcall : Call := ⟨.primary, primaryTemp10, primaryMaxTok gt⟩
    if okStatus presp.status then
      match jparse presp.body with
      | none => (.errBodyUnparsable, [pcall])
      | some data =>
        match extractText data with
        | none => (.errNoContent, [pcall])
        | some text =>
          match parseForType gt (cleanToJson text) with
          | some p => (.ok p, [pcall])
          | none =>
            let fcall : Call := ⟨.fixer, 0, fixerMaxTok gt⟩
            match runAutoFix fresp with
            | none => (.errAutoFixFailed, [pcall, fcall])
            | some fixedText =>
              match parseForType gt fixedText with
              | some p => (.ok p, [pcall, fcall])
              | none => (.errAutoFixFailed, [pcall, fcall])
    else
      match classifyError presp.status presp.body with
      | .overload => (.errOverload, [pcall])
      | .hard => (.errGemini presp.status, [pcall])
      | .unparsable => (.errBodyUnparsable, [pcall])

/-! ## Revalidating the canonical form -/

theorem validateItem_itemJson (it : FeatureItem) : validateItem (itemJson it) = some it := by
  obtain ⟨t, d, ic⟩ := it
  cases ic with
  | none => simp +decide [validateItem, itemJson, objOfJ, optEntry, getField, optField, asStr]
  | some i => simp +decide [validateItem, itemJson, objOfJ, optEntry, getField, optField, asStr]

theorem validateItems_round (items : List FeatureItem) :
    validateItems (listOfJ (items.map itemJson)) = some items := by
  induction items with
  | nil => rfl
  | cons it its ih => simp [listOfJ, validateItems, validateItem_itemJson, ih]

theorem validateSection_round (sc : Section) : validateSection (sectionJson sc) = some sc := by
  cases sc with
  | hero h sub cta =>
    cases sub <;> cases cta <;>
      simp +decide [validateSection, sectionJson, objOfJ, optEntry, getField, optField, asStr]
  | features t items =>
    cases t <;>
      simp +decide [validateSection, sectionJson, objOfJ, optEntry, getField, optField, asStr,
        validateItems_round]
  | testimonial q a =>
    simp +decide [validateSection, sectionJson, objOfJ, getField, asStr]
  | cta h c =>
    cases c <;>
      simp +decide [validateSection, sectionJson, objOfJ, optEntry, getField, optField, asStr]

theorem validateSections_round (secs : List Section) :
    validateSections (listOfJ (secs.map sectionJson)) = some secs := by
  induction secs with
  | nil => rfl
  | cons sc rest ih => simp [listOfJ, validateSections, validateSection_round, ih]

/-- The canonical value revalidates to itself: `SiteSchema.parse` applied to
the object read back from `site.json` returns the exported site. -/
theorem validateSite_siteJson (site : GeneratedSite) (h : 1 ≤ site.sections.length) :
    validateSite (siteJson site) = some site := by
  obtain ⟨t, th, secs⟩ := site
  simp only [GeneratedSite.sections] at h
  cases th with
  | none =>
    simp +decide [validateSite, siteJson, objOfJ, getField, optField, asStr, asTheme,
      validateSections_round, h]
  | some thv =>
    cases thv <;>
      simp +decide [validateSite, siteJson, objOfJ, getField, optField, asStr, asTheme,
        parseTheme, themeText, validateSections_round, h]

/-! ## Facts about the generation flow -/

theorem handleGenerate_trace_cases (k p : List Char) (gt : GenerationType)
    (pr fr : HttpResponse) :
    (handleGenerate k p gt pr fr).2 = [] ∨
    (handleGenerate k p gt pr fr).2 = [⟨.primary, primaryTemp10, primaryMaxTok gt⟩] ∨
    ((handleGenerate k p gt pr fr).2 =
      [⟨.primary, primaryTemp10, primaryMaxTok gt⟩, ⟨.fixer, 0, fixerMaxTok gt⟩] ∧
     ((handleGenerate k p gt pr fr).1 = .errAutoFixFailed ∨
       ∃ q, (handleGenerate k p gt pr fr).1 = .ok q)) := by
  unfold handleGenerate
  split
  · left; rfl
  split
  · left; rfl
  dsimp only
  split
  · split
    · right; left; rfl
    · split
      · right; left; rfl
      · split
        · right; left; rfl
        · split
          · right; right
            exact ⟨rfl, Or.inl rfl⟩
          · split
            · right; right
              exact ⟨rfl, Or.inr ⟨_, rfl⟩⟩
            · right; right
              exact ⟨rfl, Or.inl rfl⟩
  · split
    · right; left; rfl
    · right; left; rfl
    · right; left; rfl

theorem handleGenerate_calls_le_two (k p : List Char) (gt : GenerationType)
    (pr fr : HttpResponse) : (handleGenerate k p gt pr fr).2.length ≤ 2 := by
  rcases handleGenerate_trace_cases k p gt pr fr with h | h | ⟨h, -⟩ <;> simp [h]

theorem handleGenerate_overload_aborts (k p : List Char) (gt : GenerationType)
    (pr fr : HttpResponse) (hk : k ≠ []) (hp : jsTrim p ≠ [])
    (hok : okStatus pr.status = false)
    (hcl : classifyError pr.status pr.body = .overload) :
    handleGenerate k p gt pr fr =
      (.errOverload, [⟨.primary, primaryTemp10, primaryMaxTok gt⟩]) := by
  unfold handleGenerate
  rw [if_neg hk, if_neg hp]
  dsimp only
  rw [hok]
  simp [hcl]

theorem validateSite_sections_ne_nil : ∀ (j : Json) (s : GeneratedSite),
    validateSite j = some s → s.sections ≠ []
  | .obj ms, s, h => by
    simp only [validateSite] at h
    split at h
    · rename_i t th xs heq
      split at h
      · rename_i secs heq2
        split at h
        · rename_i hlen
          obtain rfl := Option.some.inj h
          show secs ≠ []
          exact List.ne_nil_of_length_pos (by omega)
        · exact absurd h (by simp)
      · exact absurd h (by simp)
    · exact absurd h (by simp)
  | .str _, s, h => by simp [validateSite] at h
  | .bool _, s, h => by simp [validateSite] at h
  | .null, s, h => by simp [validateSite] at h
  | .arr _, s, h => by simp [validateSite] at h

/-! ## Concrete inputs used by the claim theorems -/

def xssSite : GeneratedSite :=
  ⟨"T".data, none, [.hero "<script>alert(1)</script>".data none none]⟩

def ovBodyText : List Char :=
  "\x7b\"error\": \x7b\"status\": \"UNAVAILABLE\", \"message\": \"The model is overloaded.\"\x7d\x7d".data

def ovResp : HttpResponse := ⟨503, ovBodyText⟩

def ovBodyJson : Json :=
  .obj (.cons "error".data
    (.obj (.cons "status".data (.str "UNAVAILABLE".data)
      (.cons "message".data (.str "The model is overloaded.".data) .nil))) .nil)

def c3InputText : List Char :=
  "\x7b\"title\":\"T\",\"sections\":[\x7b\"type\":\"hero\",\"headline\":\"H\"\x7d]\x7d".data

def c3Result : GeneratedSite := ⟨"T".data, none, [.hero "H".data none none]⟩

def c8EmptySections : List Char := "\x7b\"title\":\"T\",\"sections\":[]\x7d".data

def c8EmptyPages : List Char := "\x7b\"pages\":[]\x7d".data

def okRespBadJson : HttpResponse :=
  ⟨200, "\x7b\"candidates\": [\x7b\"content\": \x7b\"parts\": [\x7b\"text\": \"not json\"\x7d]\x7d\x7d]\x7d".data⟩

def hardResp : HttpResponse := ⟨500, "\x7b\x7d".data⟩

def c4Site : GeneratedSite := ⟨"home about".data, none, [.hero "Welcome".data none none]⟩

/-! ## Claim theorems -/

/-- C1: buildStandaloneHtml interpolates user-supplied text only after
escapeHtml, which rewrites every occurrence of the five characters
ampersand, angle brackets, double quote and apostrophe into their HTML
entities (`escapeHtml = flatMap escCharSpec`);
in particular, a hero headline `<script>alert(1)</script>` appears in the
output only as `&lt;script&gt;alert(1)&lt;/script&gt;`, never as a raw
tag. -/
theorem claim_C1 :
    (∀ s : List Char, escapeHtml s = s.flatMap escCharSpec) ∧
    hasOcc "&lt;script&gt;alert(1)&lt;/script&gt;".data (buildStandaloneHtml xssSite) = true ∧
    hasOcc "<script>alert(1)</script>".data (buildStandaloneHtml xssSite) = false :=
  ⟨escapeHtml_eq_flatMap, by decide, by decide⟩

/-- C2 (counterexample): with every upstream response a transient-overload
503/UNAVAILABLE, handleGenerate makes exactly one upstream attempt and fails
immediately — not the six attempts (3 models × 2 tries) the claim asserts.
There is no model list, retry budget or backoff in the code. -/
theorem claim_C2_counterexample :
    handleGenerate "k".data "p".data .preview ovResp ovResp =
      (.errOverload, [⟨.primary, 7, 1200⟩]) ∧
    (handleGenerate "k".data "p".data .preview ovResp ovResp).2.length = 1 ∧
    (handleGenerate "k".data "p".data .preview ovResp ovResp).2.length ≠ 6 :=
  ⟨by decide, by decide, by decide⟩

/-- C2 (amended): every run of handleGenerate issues at most two upstream
calls (one primary, at most one repair); a transient-overload classification
of the primary response aborts the whole operation after that single attempt
with the overload error — there is no retry, backoff, or failover. -/
theorem claim_C2_amended : ∀ (k p : List Char) (gt : GenerationType) (pr fr : HttpResponse),
    (handleGenerate k p gt pr fr).2.length ≤ 2 ∧
    (k ≠ [] → jsTrim p ≠ [] → okStatus pr.status = false →
      classifyError pr.status pr.body = .overload →
      handleGenerate k p gt pr fr =
        (.errOverload, [⟨.primary, primaryTemp10, primaryMaxTok gt⟩])) :=
  fun k p gt pr fr =>
    ⟨handleGenerate_calls_le_two k p gt pr fr,
     fun hk hp hok hcl => handleGenerate_overload_aborts k p gt pr fr hk hp hok hcl⟩

theorem claim_C2_witness :
    handleGenerate "k".data "p".data .preview ovResp ovResp =
      (.errOverload, [⟨.primary, primaryTemp10, primaryMaxTok .preview⟩]) :=
  (claim_C2_amended "k".data "p".data .preview ovResp ovResp).2
    (by decide) (by decide) (by decide) (by decide)

/-- C3 (counterexample): on the claimed input, validation succeeds with the
single-page SiteSchema and returns a GeneratedSite whose `theme` is absent —
not the claimed one-page Project with slug "index" and defaulted theme
"green"; no multi-page schema or wrapping exists in the code. -/
theorem claim_C3_counterexample :
    parseForType .preview c3InputText = some (.site c3Result) ∧
    c3Result.theme ≠ some Theme.green :=
  ⟨by decide, by decide⟩

/-- C3 (amended): for the preview kind, validation is the single SiteSchema
alone; on `{"title":"T","sections":[{"type":"hero","headline":"H"}]}` it
returns title "T", theme left absent (no "green" default), and exactly one
hero section with headline "H"; the same input validates under neither of the
other two schemas. -/
theorem claim_C3_amended :
    parseForType .preview c3InputText =
      some (.site ⟨"T".data, none, [.hero "H".data none none]⟩) ∧
    parseForType .fullstack c3InputText = none ∧
    parseForType .reactVite c3InputText = none :=
  ⟨by decide, by decide, by decide⟩

/-- C4 (counterexample): the bundle built by buildProjectZip contains exactly
index.html, styles.css, script.js, site.json and README.md — never a
home.html or about.html; there is no per-page export. -/
theorem claim_C4_counterexample :
    (buildProjectFiles c4Site).map Prod.fst =
      ["index.html".data, "styles.css".data, "script.js".data,
       "site.json".data, "README.md".data] ∧
    ¬ ("home.html".data ∈ (buildProjectFiles c4Site).map Prod.fst) ∧
    ¬ ("about.html".data ∈ (buildProjectFiles c4Site).map Prod.fst) :=
  ⟨rfl, by decide, by decide⟩

/-- C4 (amended): for every GeneratedSite, the bundle contains exactly the
files index.html, styles.css, script.js, site.json and README.md; parsing
the emitted site.json text returns exactly the JSON value of the exported
site, and (whenever the site has at least one section, as every validated
site does) re-validating that value returns a site deep-equal to the
input. -/
theorem claim_C4_amended : ∀ site : GeneratedSite,
    (buildProjectFiles site).map Prod.fst =
      ["index.html".data, "styles.css".data, "script.js".data,
       "site.json".data, "README.md".data] ∧
    jparse (stringifySite site) = some (siteJson site) ∧
    (1 ≤ site.sections.length → validateSite (siteJson site) = some site) :=
  fun site => ⟨rfl, jparse_stringify _, fun h => validateSite_siteJson site h⟩

theorem claim_C4_witness :
    validateSite (siteJson c4Site) = some c4Site :=
  (claim_C4_amended c4Site).2.2 (by decide)

/-- C5: exporting is deterministic — buildStandaloneHtml and the bundle-file
construction of buildProjectZip are pure functions of the site value: two
calls on equal inputs give byte-for-byte equal outputs (the embedding has no
other input: no clock, randomness or ambient state). -/
theorem claim_C5 : ∀ (s₁ s₂ : GeneratedSite), s₁ = s₂ →
    buildStandaloneHtml s₁ = buildStandaloneHtml s₂ ∧
    buildProjectFiles s₁ = buildProjectFiles s₂ := by
  rintro s _ rfl
  exact ⟨rfl, rfl⟩

theorem claim_C5_witness :
    buildStandaloneHtml c4Site = buildStandaloneHtml c4Site ∧
    buildProjectFiles c4Site = buildProjectFiles c4Site :=
  claim_C5 c4Site c4Site rfl

/-- C6: in one handleGenerate run the repair call is issued at most once,
always with temperature 0 and the per-kind repair output budget, which is
strictly below the primary budget (800 vs 1200, 4000 vs 8000, 6000 vs
12000); and once the repair call has been issued the operation ends with
that attempt — success or the terminal auto-fix error, never further
calls. -/
theorem claim_C6 : ∀ (k p : List Char) (gt : GenerationType) (pr fr : HttpResponse),
    ((handleGenerate k p gt pr fr).2.filter (fun c => c.kind == .fixer)).length ≤ 1 ∧
    (∀ c ∈ (handleGenerate k p gt pr fr).2, c.kind = .fixer →
      c.temp10 = 0 ∧ c.maxTok = fixerMaxTok gt) ∧
    fixerMaxTok gt < primaryMaxTok gt ∧
    (fixerMaxTok .preview = 800 ∧ primaryMaxTok .preview = 1200 ∧
     fixerMaxTok .fullstack = 4000 ∧ primaryMaxTok .fullstack = 8000 ∧
     fixerMaxTok .reactVite = 6000 ∧ primaryMaxTok .reactVite = 12000) ∧
    ((∃ c ∈ (handleGenerate k p gt pr fr).2, c.kind = .fixer) →
      ((handleGenerate k p gt pr fr).1 = .errAutoFixFailed ∨
        ∃ q, (handleGenerate k p gt pr fr).1 = .ok q) ∧
      (handleGenerate k p gt pr fr).2.length = 2) := by
  intro k p gt pr fr
  have htr := handleGenerate_trace_cases k p gt pr fr
  refine ⟨?_, ?_, by cases gt <;> decide, by decide, ?_⟩
  · rcases htr with h | h | ⟨h, -⟩ <;> simp [h, List.filter]
  · intro c hc hk
    rcases htr with h | h | ⟨h, -⟩ <;> rw [h] at hc
    · simp at hc
    · simp at hc
      rw [hc] at hk
      simp at hk
    · simp at hc
      rcases hc with rfl | rfl
      · simp at hk
      · exact ⟨rfl, rfl⟩
  · rintro ⟨c, hc, hk⟩
    rcases htr with h | h | ⟨h, hout⟩
    · rw [h] at hc; simp at hc
    · rw [h] at hc
      simp at hc
      rw [hc] at hk
      simp at hk
    · exact ⟨hout, by rw [h]; rfl⟩

theorem claim_C6_witness :
    ((handleGenerate "k".data "p".data .preview okRespBadJson hardResp).1 =
        .errAutoFixFailed ∨
      ∃ q, (handleGenerate "k".data "p".data .preview okRespBadJson hardResp).1 = .ok q) ∧
    (handleGenerate "k".data "p".data .preview okRespBadJson hardResp).2.length = 2 :=
  (claim_C6 "k".data "p".data .preview okRespBadJson hardResp).2.2.2.2 (by decide)

/-- C7: for a non-2xx response whose body parses as JSON, the classification
is transient-overload exactly when the HTTP status is 503 and the body's
`error.status` is the literal "UNAVAILABLE"; every other parsed non-2xx
response is classified as a hard error. -/
theorem claim_C7 : ∀ (status : Nat) (body : List Char) (j : Json),
    jparse body = some j → okStatus status = false →
    (classifyError status body = .overload ↔
      (status = 503 ∧ getErrStatus j = some "UNAVAILABLE".data)) ∧
    (¬ (status = 503 ∧ getErrStatus j = some "UNAVAILABLE".data) →
      classifyError status body = .hard) := by
  intro st body j hp _
  unfold classifyError
  rw [hp]
  dsimp only
  constructor
  · constructor
    · intro h
      by_contra hc
      rw [if_neg hc] at h
      exact absurd h (by decide)
    · intro hc
      rw [if_pos hc]
  · intro hc
    rw [if_neg hc]

theorem claim_C7_witness :
    jparse ovBodyText = some ovBodyJson ∧ okStatus 503 = false ∧
    classifyError 503 ovBodyText = .overload ∧
    classifyError 500 ovBodyText = .hard := by
  have h1 : jparse ovBodyText = some ovBodyJson := by rfl
  refine ⟨h1, by decide, ?_, ?_⟩
  · exact (claim_C7 503 ovBodyText ovBodyJson h1 (by decide)).1.mpr ⟨rfl, by decide⟩
  · exact (claim_C7 500 ovBodyText ovBodyJson h1 (by decide)).2 (by decide)

/-- C8: `{"title":"T","sections":[]}` and `{"pages":[]}` are rejected by
every schema variant in the code, and no JSON value whatsoever validates
under SiteSchema into a site with an empty section list. -/
theorem claim_C8 :
    parseForType .preview c8EmptySections = none ∧
    parseForType .fullstack c8EmptySections = none ∧
    parseForType .reactVite c8EmptySections = none ∧
    parseForType .preview c8EmptyPages = none ∧
    parseForType .fullstack c8EmptyPages = none ∧
    parseForType .reactVite c8EmptyPages = none ∧
    (∀ (j : Json) (s : GeneratedSite), validateSite j = some s → s.sections ≠ []) :=
  ⟨by decide, by decide, by decide, by decide, by decide, by decide,
   validateSite_sections_ne_nil⟩

theorem claim_C8_witness : c4Site.sections ≠ [] :=
  claim_C8.2.2.2.2.2.2 (siteJson c4Site) c4Site (by decide)

/-- C9: the emitted standalone HTML is independent of the site's theme
field — replacing the theme by any value (green, light, dark, or absent)
leaves buildStandaloneHtml byte-for-byte unchanged; the code reads the
field but never uses it. -/
theorem claim_C9 : ∀ (site : GeneratedSite) (t : Option Theme),
    buildStandaloneHtml { site with theme := t } = buildStandaloneHtml site := by
  intro site t
  cases site
  rfl

/-- C10: for every GeneratedSite, the standalone render contains `<body>`
and a later `</body>` (first and last occurrences in that order), so the
bodyContent computed by buildProjectZip is exactly the body inner content of
the render, never the empty-string fallback. -/
theorem claim_C10 : ∀ site : GeneratedSite,
    (∃ o c, firstOcc bodyOpenTag (buildStandaloneHtml site) = some o ∧
      lastOcc bodyCloseTag (buildStandaloneHtml site) = some c ∧ o < c) ∧
    extractBodyContent (buildStandaloneHtml site) =
      "\n    ".data ++ sectionsHtml site ++ "\n  ".data := by
  intro site
  refine ⟨⟨(headPart site).length,
    (headPart site).length + 6 + (bodyInner site).length,
    firstOcc_body site, lastOcc_body site, by omega⟩, ?_⟩
  rw [extractBody_eq]
  rfl
